import Mathlib

/-!
Verification of the statistical core of `lib/stats.py` (the resilio
repository): descriptive statistics, a normality classifier, Welch's
t-test, the Mann-Whitney U test, effect sizes, coarse p-value tables and
the `hypothesis_test` orchestrator.

Modelling conventions:
* Sample values and all intermediate numeric quantities are modelled as
  exact rationals (`ℚ`); the Python code computes with floats, and the
  spec idealises that arithmetic as exact real arithmetic.
* `math.sqrt` (and `statistics.stdev`, which is the square root of the
  sample variance) is modelled as an explicit parameter `sqrt : ℚ → ℚ`.
  Theorems that need a property of the genuine square root assume only
  `∀ x, 0 ≤ x → (sqrt x = 0 ↔ x = 0)`, which holds of the real square
  root and of IEEE `math.sqrt` restricted to exact zero tests.
* Python's heterogeneous return tuples of `welchs_t_test` (which mix
  numbers and a status string, and whose arity differs between branches)
  are modelled as `List PyVal`.
* The one reachable runtime exception (`ZeroDivisionError` inside
  `calculate_rank_biserial`, caught at the CLI boundary and printed as an
  `ERROR|...` line) is modelled by `Except String`.
* Python's `sorted` is a stable sort by a total order; on values (and on
  `(value, group)` pairs ordered lexicographically) any sort by the same
  total order produces the same list, so `List.insertionSort` is used.
-/

namespace stats

/-- A Python value appearing in the result tuples of `welchs_t_test`:
either a number or a status string. -/
inductive PyVal where
  | num (q : ℚ)
  | str (s : String)
deriving DecidableEq

/-- The tagged outcome printed by the `hypothesis_test` command of
`main`: either a Welch line or a Mann-Whitney line, each carrying the
test statistics, the p-value, the test status, the effect size and the
two samples' normality statuses. -/
inductive Outcome where
  | welch (t df p : ℚ) (status : String) (effect : ℚ) (s1 s2 : String)
  | mannwhitney (u z p : ℚ) (status : String) (effect : ℚ) (s1 s2 : String)
deriving DecidableEq

instance {ε α : Type} [DecidableEq ε] [DecidableEq α] :
    DecidableEq (Except ε α) := fun a b =>
  match a, b with
  | Except.ok x, Except.ok y =>
      if h : x = y then isTrue (by rw [h])
      else isFalse (fun hc => h (Except.ok.inj hc))
  | Except.ok _, Except.error _ => isFalse (fun hc => Except.noConfusion hc)
  | Except.error _, Except.ok _ => isFalse (fun hc => Except.noConfusion hc)
  | Except.error x, Except.error y =>
      if h : x = y then isTrue (by rw [h])
      else isFalse (fun hc => h (Except.error.inj hc))

/-- `statistics.mean`: sum divided by length.  (Python raises on an
empty list; every call site in the embedded code is guarded, so the
`ℚ`-convention value `0/0 = 0` is never relied upon.) -/
def mean (l : List ℚ) : ℚ := l.sum / (l.length : ℚ)

/-- `statistics.variance`: sample variance with the `n − 1` denominator.
(Python raises for `n < 2`; every call site in the embedded code is
guarded, so the `ℚ`-convention value for `n ≤ 1` is never relied upon.) -/
def variance (l : List ℚ) : ℚ :=
  (l.map (fun x => (x - mean l) ^ 2)).sum / ((l.length : ℚ) - 1)

/-- `statistics.median`: middle element of the sorted sample for odd
length, average of the two middle elements for even length. -/
def median (l : List ℚ) : ℚ :=
  let s := List.insertionSort (· ≤ ·) l
  let n := l.length
  if n % 2 = 1 then s.getD (n / 2) 0
  else (s.getD (n / 2 - 1) 0 + s.getD (n / 2) 0) / 2

/-- Python's builtin `min` over a list: fold of the first element with
binary `min` over the rest. -/
def listMin : List ℚ → ℚ
  | [] => 0
  | a :: t => t.foldl min a

/-- Python's builtin `max` over a list: fold of the first element with
binary `max` over the rest. -/
def listMax : List ℚ → ℚ
  | [] => 0
  | a :: t => t.foldl max a

/-- `calculate_stats(values)` from `lib/stats.py`: returns the list
`[mean, median, stdev, min, max, p90, p95, p99, ci_lower, ci_upper]`,
or ten zeros for the empty sample.  The percentile index
`int(q * (n - 1))` is the exact floor `⌊q·(n−1)⌋`, written with natural
division.  `sqrt` stands for `math.sqrt` (also used by
`statistics.stdev`). -/
def calculate_stats (sqrt : ℚ → ℚ) (values : List ℚ) : List ℚ :=
  if values = [] then List.replicate 10 0
  else
    let n := values.length
    let m := mean values
    let med := median values
    let stdev := if 1 < n then sqrt (variance values) else 0
    let min_val := listMin values
    let max_val := listMax values
    let sorted_vals := List.insertionSort (· ≤ ·) values
    let p90 := sorted_vals.getD (9 * (n - 1) / 10) 0
    let p95 := sorted_vals.getD (19 * (n - 1) / 20) 0
    let p99 := sorted_vals.getD (99 * (n - 1) / 100) 0
    let confidence_margin := if 0 < n then 1.96 * (stdev / sqrt (n : ℚ)) else 0
    [m, med, stdev, min_val, max_val, p90, p95, p99,
      m - confidence_margin, m + confidence_margin]

/-- `check_normality(values)` from `lib/stats.py`: returns
`(status, skewness, kurtosis)`. -/
def check_normality (sqrt : ℚ → ℚ) (values : List ℚ) : String × ℚ × ℚ :=
  let n := values.length
  if n < 20 then ("insufficient_data", 0, 0)
  else
    let m := mean values
    let stdev := sqrt (variance values)
    if stdev = 0 then ("zero_variance", 0, 0)
    else
      let z_scores := values.map (fun x => (x - m) / stdev)
      let skewness := (z_scores.map (fun z => z ^ 3)).sum / (n : ℚ)
      let kurtosis := (z_scores.map (fun z => z ^ 4)).sum / (n : ℚ) - 3
      let status :=
        if |skewness| ≤ 1 ∧ |kurtosis| ≤ 2 then "approximately_normal"
        else "non_normal"
      (status, skewness, kurtosis)

/-- `welchs_t_test(v1, v2)` from `lib/stats.py`.  The source returns
tuples of differing arity: the two guard branches return FOUR values
(`0, 0, 0, "insufficient_data"` and `0, 0, 999, "zero_variance"`) while
the success branch returns three (`t_stat, df, "success"`); the result
is therefore a heterogeneous list of `PyVal`. -/
def welchs_t_test (sqrt : ℚ → ℚ) (v1 v2 : List ℚ) : List PyVal :=
  let n1 := v1.length
  let n2 := v2.length
  if n1 < 2 ∨ n2 < 2 then
    [PyVal.num 0, PyVal.num 0, PyVal.num 0, PyVal.str "insufficient_data"]
  else
    let m1 := mean v1
    let m2 := mean v2
    let s1_sq := variance v1
    let s2_sq := variance v2
    let se := sqrt (s1_sq / (n1 : ℚ) + s2_sq / (n2 : ℚ))
    if se = 0 then
      [PyVal.num 0, PyVal.num 0, PyVal.num 999, PyVal.str "zero_variance"]
    else
      let t_stat := (m1 - m2) / se
      let num := (s1_sq / (n1 : ℚ) + s2_sq / (n2 : ℚ)) ^ 2
      let den := (s1_sq / (n1 : ℚ)) ^ 2 / ((n1 : ℚ) - 1)
               + (s2_sq / (n2 : ℚ)) ^ 2 / ((n2 : ℚ) - 1)
      let df := if 0 < den then num / den else 30
      [PyVal.num t_stat, PyVal.num df, PyVal.str "success"]

/-- Lexicographic order on `(value, group)` pairs: Python's `sorted`
compares tuples first by value, then by group tag. -/
def tuple_le (a b : ℚ × ℕ) : Prop :=
  a.1 < b.1 ∨ (a.1 = b.1 ∧ a.2 ≤ b.2)

instance : DecidableRel tuple_le := fun a b => by
  unfold tuple_le; infer_instance

/-- `sorted([(v, 1) for v in v1] + [(v, 2) for v in v2])`: the merged,
group-tagged, lexicographically sorted list. -/
def combined_sorted (v1 v2 : List ℚ) : List (ℚ × ℕ) :=
  List.insertionSort tuple_le
    (v1.map (fun v => (v, 1)) ++ v2.map (fun v => (v, 2)))

/-- The second (effective) rank pass of `mann_whitney_u_test`: walk the
sorted merged list group by group of equal values; a group starting at
zero-based position `i` with `j = i + size` gets midrank `(i+1+j)/2`,
which is added once per group-1 member.  Returns `r1_sum`. -/
def r1_sum_aux : List (ℚ × ℕ) → ℕ → ℚ
  | [], _ => 0
  | x :: rest, i =>
    let grp := rest.takeWhile (fun p => decide (p.1 = x.1))
    let j := i + grp.length + 1
    let avg_rank : ℚ := ((i : ℚ) + 1 + (j : ℚ)) / 2
    let cnt := ((x :: grp).filter (fun p => decide (p.2 = 1))).length
    avg_rank * (cnt : ℚ) + r1_sum_aux (rest.drop grp.length) j
termination_by l _ => l.length
decreasing_by
  simp only [List.length_drop, List.length_cons]
  omega

/-- The first rank pass of `mann_whitney_u_test` (source lines 89–106):
it walks the tie groups and computes each group's `avg_rank`, but its
inner loop body is `pass`, so the pre-allocated `ranks` array of zeros
is returned unchanged and nothing else escapes the loop. -/
def dead_rank_pass : List (ℚ × ℕ) → ℕ → List ℚ → List ℚ
  | [], _, ranks => ranks
  | x :: rest, i, ranks =>
    let grp := rest.takeWhile (fun p => decide (p.1 = x.1))
    let j := i + grp.length + 1
    let _avg_rank : ℚ := ((i : ℚ) + 1 + (j : ℚ)) / 2
    dead_rank_pass (rest.drop grp.length) j ranks
termination_by l _ _ => l.length
decreasing_by
  simp only [List.length_drop, List.length_cons]
  omega

/-- `r1_sum`: the group-1 rank sum over the (re-sorted, as in the
source) merged list. -/
def r1_sum (v1 v2 : List ℚ) : ℚ := r1_sum_aux (combined_sorted v1 v2) 0

/-- `u1 = r1_sum - (n1 * (n1 + 1)) / 2` (source line 122). -/
def u1 (v1 v2 : List ℚ) : ℚ :=
  r1_sum v1 v2 - ((v1.length : ℚ) * ((v1.length : ℚ) + 1)) / 2

/-- `u2 = (n1 * n2) - u1` (source line 123). -/
def u2 (v1 v2 : List ℚ) : ℚ :=
  ((v1.length : ℚ) * (v2.length : ℚ)) - u1 v1 v2

/-- `mann_whitney_u_test(v1, v2)` from `lib/stats.py`: returns
`(u_stat, z_score, status)`.  The first, dead rank pass of the source is
kept (its unused result is bound and discarded), followed by the
effective pass through `u1`/`u2`. -/
def mann_whitney_u_test (sqrt : ℚ → ℚ) (v1 v2 : List ℚ) : ℚ × ℚ × String :=
  let n1 := v1.length
  let n2 := v2.length
  if n1 < 3 ∨ n2 < 3 then (0, 0, "insufficient_data")
  else
    let _ranks := dead_rank_pass (combined_sorted v1 v2) 0
      (List.replicate (n1 + n2) 0)
    let u_stat := min (u1 v1 v2) (u2 v1 v2)
    let mu_u := ((n1 : ℚ) * (n2 : ℚ)) / 2
    let sigma_u := sqrt (((n1 : ℚ) * (n2 : ℚ) * ((n1 : ℚ) + (n2 : ℚ) + 1)) / 12)
    if sigma_u = 0 then (u_stat, 0, "zero_variance")
    else (u_stat, (u_stat - mu_u) / sigma_u, "success")

/-- Modelled from the spec (§9, design note on the redundant first rank
pass): the variant of `mann_whitney_u_test` an implementer should write,
identical except that the first, dead rank-computation pass is removed
and only the single correct rank-sum pass is kept. -/
def mann_whitney_single_pass (sqrt : ℚ → ℚ) (v1 v2 : List ℚ) :
    ℚ × ℚ × String :=
  let n1 := v1.length
  let n2 := v2.length
  if n1 < 3 ∨ n2 < 3 then (0, 0, "insufficient_data")
  else
    let u_stat := min (u1 v1 v2) (u2 v1 v2)
    let mu_u := ((n1 : ℚ) * (n2 : ℚ)) / 2
    let sigma_u := sqrt (((n1 : ℚ) * (n2 : ℚ) * ((n1 : ℚ) + (n2 : ℚ) + 1)) / 12)
    if sigma_u = 0 then (u_stat, 0, "zero_variance")
    else (u_stat, (u_stat - mu_u) / sigma_u, "success")

/-- `calculate_cohens_d` from `lib/stats.py`. -/
def calculate_cohens_d (sqrt : ℚ → ℚ) (m1 m2 s1_sq s2_sq : ℚ)
    (n1 n2 : ℕ) : ℚ :=
  let pooled_var := (((n1 : ℚ) - 1) * s1_sq + ((n2 : ℚ) - 1) * s2_sq)
                  / ((n1 : ℚ) + (n2 : ℚ) - 2)
  let pooled_sd := sqrt pooled_var
  if 0 < pooled_sd then (m1 - m2) / pooled_sd else 0

/-- `calculate_rank_biserial(u_stat, n1, n2)` from `lib/stats.py`:
`1 - (2 * u_stat) / (n1 * n2)`.  When `n1 * n2 = 0` the Python division
raises `ZeroDivisionError`, modelled as an `Except.error`. -/
def calculate_rank_biserial (u_stat : ℚ) (n1 n2 : ℕ) : Except String ℚ :=
  if n1 * n2 = 0 then Except.error "division by zero"
  else Except.ok (1 - (2 * u_stat) / ((n1 : ℚ) * (n2 : ℚ)))

/-- `t_to_pvalue(t, df)` from `lib/stats.py`. -/
def t_to_pvalue (t df : ℚ) : ℚ :=
  let abs_t := |t|
  if 30 < df then
    if 3.5 < abs_t then 0.001
    else if 2.576 < abs_t then 0.01
    else if 1.96 < abs_t then 0.05
    else if 1.645 < abs_t then 0.10
    else 0.20
  else
    if 3 < abs_t then 0.01
    else if 2 < abs_t then 0.05
    else 0.20

/-- `z_to_pvalue(z)` from `lib/stats.py`. -/
def z_to_pvalue (z : ℚ) : ℚ :=
  let abs_z := |z|
  if 3.291 < abs_z then 0.001
  else if 2.576 < abs_z then 0.01
  else if 1.96 < abs_z then 0.05
  else if 1.645 < abs_z then 0.10
  else if 1.28 < abs_z then 0.20
  else 0.50

/-- The `hypothesis_test` command of `main` (source lines 198–218),
after input parsing: classify both samples, route to Welch's test when
both are approximately normal and to Mann-Whitney otherwise, and emit
the tagged outcome.  Python's 3-variable unpacking of the return of
`welchs_t_test` raises on a 4-tuple (dead branch arm), and the division
inside `calculate_rank_biserial` can raise; both surface as
`Except.error`, matching the `ERROR|...` line printed at the boundary. -/
def hypothesis_test (sqrt : ℚ → ℚ) (v1 v2 : List ℚ) :
    Except String Outcome :=
  let n1 := v1.length
  let n2 := v2.length
  let s1_status := (check_normality sqrt v1).1
  let s2_status := (check_normality sqrt v2).1
  if s1_status = "approximately_normal" ∧ s2_status = "approximately_normal"
  then
    match welchs_t_test sqrt v1 v2 with
    | [PyVal.num t, PyVal.num df, PyVal.str status] =>
      let p := t_to_pvalue t df
      let m1 := mean v1
      let m2 := mean v2
      let v1_var := variance v1
      let v2_var := variance v2
      let effect := calculate_cohens_d sqrt m1 m2 v1_var v2_var n1 n2
      Except.ok (Outcome.welch t df p status effect s1_status s2_status)
    | _ => Except.error "too many values to unpack (expected 3)"
  else
    let mw := mann_whitney_u_test sqrt v1 v2
    let p := z_to_pvalue mw.2.1
    match calculate_rank_biserial mw.1 n1 n2 with
    | Except.ok effect =>
        Except.ok (Outcome.mannwhitney mw.1 mw.2.1 p mw.2.2 effect
          s1_status s2_status)
    | Except.error e => Except.error e

/-- A concrete stand-in for `math.sqrt`, used in closed witness
statements.  It agrees with the real square root on whether the result
is zero (`sqrtStub x = 0 ↔ x = 0` for `x ≥ 0`), which is the only
property of `math.sqrt` any theorem below relies on; every closed
evaluation below applies it only at arguments where that property (or
no property at all) is used. -/
def sqrtStub (x : ℚ) : ℚ := if x ≤ 0 then 0 else 1

end stats

namespace stats

/-! ### Helper lemmas -/

lemma sqrtStub_spec : ∀ x : ℚ, 0 ≤ x → (sqrtStub x = 0 ↔ x = 0) := by
  intro x hx
  unfold sqrtStub
  split_ifs with h
  · exact ⟨fun _ => le_antisymm h hx, fun _ => rfl⟩
  · constructor
    · intro h1; exact absurd h1 one_ne_zero
    · intro h0; rw [h0] at h; exact absurd le_rfl h

lemma variance_nonneg (l : List ℚ) (h : 2 ≤ l.length) : 0 ≤ variance l := by
  unfold variance
  apply div_nonneg
  · apply List.sum_nonneg
    intro x hx
    simp only [List.mem_map] at hx
    obtain ⟨y, -, rfl⟩ := hx
    positivity
  · have h2 : (2 : ℚ) ≤ (l.length : ℚ) := by exact_mod_cast h
    linarith

lemma check_normality_insufficient (sq : ℚ → ℚ) (l : List ℚ)
    (h : l.length < 20) : (check_normality sq l).1 = "insufficient_data" := by
  simp only [check_normality]
  rw [if_pos h]

lemma check_normality_normal_facts (sq : ℚ → ℚ) (l : List ℚ)
    (h : (check_normality sq l).1 = "approximately_normal") :
    20 ≤ l.length ∧ sq (variance l) ≠ 0 := by
  simp only [check_normality] at h
  by_cases h1 : l.length < 20
  · rw [if_pos h1] at h; exact absurd h (by decide)
  · rw [if_neg h1] at h
    by_cases h2 : sq (variance l) = 0
    · rw [if_pos h2] at h; exact absurd h (by decide)
    · exact ⟨by omega, h2⟩

lemma welchs_t_test_success (sq : ℚ → ℚ)
    (Hsq : ∀ x, 0 ≤ x → (sq x = 0 ↔ x = 0)) (v1 v2 : List ℚ)
    (h1 : 20 ≤ v1.length) (h2 : 20 ≤ v2.length)
    (hs1 : sq (variance v1) ≠ 0) (hs2 : sq (variance v2) ≠ 0) :
    ∃ t df, welchs_t_test sq v1 v2 =
      [PyVal.num t, PyVal.num df, PyVal.str "success"] := by
  have hnn1 := variance_nonneg v1 (by omega)
  have hnn2 := variance_nonneg v2 (by omega)
  have hv1 : 0 < variance v1 :=
    lt_of_le_of_ne hnn1 (Ne.symm fun h0 => hs1 ((Hsq _ hnn1).mpr h0))
  have hv2 : 0 < variance v2 :=
    lt_of_le_of_ne hnn2 (Ne.symm fun h0 => hs2 ((Hsq _ hnn2).mpr h0))
  have hl1 : (0 : ℚ) < (v1.length : ℚ) := by exact_mod_cast by omega
  have hl2 : (0 : ℚ) < (v2.length : ℚ) := by exact_mod_cast by omega
  have hrad : 0 < variance v1 / (v1.length : ℚ) + variance v2 / (v2.length : ℚ) :=
    add_pos (div_pos hv1 hl1) (div_pos hv2 hl2)
  have hse : sq (variance v1 / (v1.length : ℚ) + variance v2 / (v2.length : ℚ)) ≠ 0 :=
    fun h0 => (ne_of_gt hrad) ((Hsq _ (le_of_lt hrad)).mp h0)
  simp only [welchs_t_test]
  rw [if_neg (by omega), if_neg hse]
  exact ⟨_, _, rfl⟩

/-! ### Claims -/

/-- C1 (amended): for samples with n1 ≥ 2 and n2 ≥ 2, when the standard
error `sqrt(s1²/n1 + s2²/n2)` equals 0, `welchs_t_test` returns the
4-tuple `(0, 0, 999, "zero_variance")`: the sentinel df of 999 is
encoded by the test itself as a third numeric field, and the arity is 4,
not the `{t_stat, df, status}` shape of the success branch. -/
theorem welchs_t_test_zero_variance_quadruple (sq : ℚ → ℚ) (v1 v2 : List ℚ)
    (h1 : 2 ≤ v1.length) (h2 : 2 ≤ v2.length)
    (hse : sq (variance v1 / (v1.length : ℚ) + variance v2 / (v2.length : ℚ)) = 0) :
    welchs_t_test sq v1 v2 =
      [PyVal.num 0, PyVal.num 0, PyVal.num 999, PyVal.str "zero_variance"] := by
  simp only [welchs_t_test]
  rw [if_neg (by omega), if_pos hse]

/-- C1 witness: the samples `[1,1]` and `[2,2]` each have variance 0, so
the standard error is 0 and the zero-variance 4-tuple is returned. -/
theorem welchs_t_test_zero_variance_quadruple_witness :
    welchs_t_test sqrtStub [1, 1] [2, 2] =
      [PyVal.num 0, PyVal.num 0, PyVal.num 999, PyVal.str "zero_variance"] := by
  have h := welchs_t_test_zero_variance_quadruple sqrtStub [1, 1] [2, 2]
    (by norm_num) (by norm_num)
    (by norm_num [variance, mean, sqrtStub])
  exact h

/-- C1 counterexample: at `v1 = [1,1]`, `v2 = [2,2]` the standard error
is 0, yet the returned tuple is the 4-tuple containing 999, not the
claimed 3-field `(0, 0, "zero_variance")` with df = 0. -/
theorem welchs_t_test_zero_variance_claim_counterexample :
    welchs_t_test sqrtStub [1, 1] [2, 2] =
      [PyVal.num 0, PyVal.num 0, PyVal.num 999, PyVal.str "zero_variance"] ∧
    welchs_t_test sqrtStub [1, 1] [2, 2] ≠
      [PyVal.num 0, PyVal.num 0, PyVal.str "zero_variance"] := by
  have h : welchs_t_test sqrtStub [1, 1] [2, 2] =
      [PyVal.num 0, PyVal.num 0, PyVal.num 999, PyVal.str "zero_variance"] := by
    norm_num [welchs_t_test, variance, mean, sqrtStub]
  exact ⟨h, by rw [h]; simp⟩

/-- C2 (amended): when either sample has fewer than 2 elements,
`welchs_t_test` returns, without computing any statistic, the 4-tuple
`(0, 0, 0, "insufficient_data")` — one numeric field more than the
`{t_stat, df, status}` shape of the success branch. -/
theorem welchs_t_test_insufficient_data_quadruple (sq : ℚ → ℚ)
    (v1 v2 : List ℚ) (h : v1.length < 2 ∨ v2.length < 2) :
    welchs_t_test sq v1 v2 =
      [PyVal.num 0, PyVal.num 0, PyVal.num 0, PyVal.str "insufficient_data"] := by
  simp only [welchs_t_test]
  rw [if_pos h]

/-- C2 witness: two empty samples trigger the insufficient-data
4-tuple. -/
theorem welchs_t_test_insufficient_data_quadruple_witness :
    welchs_t_test sqrtStub [] [] =
      [PyVal.num 0, PyVal.num 0, PyVal.num 0, PyVal.str "insufficient_data"] := by
  exact welchs_t_test_insufficient_data_quadruple sqrtStub [] []
    (Or.inl (by norm_num))

/-- C2 counterexample: for two empty samples the result is the 4-tuple,
not the claimed 3-field `(0, 0, "insufficient_data")` shape. -/
theorem welchs_t_test_insufficient_data_claim_counterexample :
    welchs_t_test sqrtStub [] [] =
      [PyVal.num 0, PyVal.num 0, PyVal.num 0, PyVal.str "insufficient_data"] ∧
    welchs_t_test sqrtStub [] [] ≠
      [PyVal.num 0, PyVal.num 0, PyVal.str "insufficient_data"] := by
  have h : welchs_t_test sqrtStub [] [] =
      [PyVal.num 0, PyVal.num 0, PyVal.num 0, PyVal.str "insufficient_data"] := by
    norm_num [welchs_t_test]
  exact ⟨h, by rw [h]; simp⟩

/-- C5: for samples with n1 ≥ 3 and n2 ≥ 3, the Mann-Whitney
intermediate quantities `u1 = r1_sum − n1(n1+1)/2` and
`u2 = n1·n2 − u1` satisfy `u1 + u2 = n1 · n2` exactly. -/
theorem u1_add_u2_eq_n1_mul_n2 (v1 v2 : List ℚ)
    (h1 : 3 ≤ v1.length) (h2 : 3 ≤ v2.length) :
    u1 v1 v2 + u2 v1 v2 = (v1.length : ℚ) * (v2.length : ℚ) := by
  unfold u2
  ring

/-- C5 witness: for `[1,2,3]` and `[4,5,6]`, `u1 + u2 = 3 · 3 = 9`. -/
theorem u1_add_u2_eq_n1_mul_n2_witness :
    u1 [1, 2, 3] [4, 5, 6] + u2 [1, 2, 3] [4, 5, 6] = 9 := by
  have h := u1_add_u2_eq_n1_mul_n2 [1, 2, 3] [4, 5, 6]
    (by norm_num) (by norm_num)
  norm_num at h
  exact h

/-- C7: `mann_whitney_u_test` computes the same result as the variant
with its first, dead rank-computation pass removed: the first pass over
the sorted merged list computes tie-group midranks but discards them,
and only the second pass determines the output. -/
theorem mann_whitney_dead_pass_equiv (sq : ℚ → ℚ) (v1 v2 : List ℚ) :
    mann_whitney_u_test sq v1 v2 = mann_whitney_single_pass sq v1 v2 := rfl

/-- C8: `z_to_pvalue` maps `|z|` through the thresholds
3.291/2.576/1.96/1.645/1.28 to 0.001/0.01/0.05/0.10/0.20 (first
threshold exceeded wins), returns 0.50 when no threshold is exceeded,
and is consequently non-increasing in `|z|`. -/
theorem z_to_pvalue_table_antitone (z w : ℚ) :
    (3.291 < |z| → z_to_pvalue z = 0.001) ∧
    (2.576 < |z| ∧ |z| ≤ 3.291 → z_to_pvalue z = 0.01) ∧
    (1.96 < |z| ∧ |z| ≤ 2.576 → z_to_pvalue z = 0.05) ∧
    (1.645 < |z| ∧ |z| ≤ 1.96 → z_to_pvalue z = 0.10) ∧
    (1.28 < |z| ∧ |z| ≤ 1.645 → z_to_pvalue z = 0.20) ∧
    (|z| ≤ 1.28 → z_to_pvalue z = 0.50) ∧
    (|z| ≤ |w| → z_to_pvalue w ≤ z_to_pvalue z) := by
  refine ⟨?_, ?_, ?_, ?_, ?_, ?_, ?_⟩
  · intro h
    simp only [z_to_pvalue]
    rw [if_pos h]
  · rintro ⟨ha, hb⟩
    simp only [z_to_pvalue]
    rw [if_neg (by linarith), if_pos ha]
  · rintro ⟨ha, hb⟩
    simp only [z_to_pvalue]
    rw [if_neg (by linarith), if_neg (by linarith), if_pos ha]
  · rintro ⟨ha, hb⟩
    simp only [z_to_pvalue]
    rw [if_neg (by linarith), if_neg (by linarith), if_neg (by linarith),
      if_pos ha]
  · rintro ⟨ha, hb⟩
    simp only [z_to_pvalue]
    rw [if_neg (by linarith), if_neg (by linarith), if_neg (by linarith),
      if_neg (by linarith), if_pos ha]
  · intro h
    simp only [z_to_pvalue]
    rw [if_neg (by linarith), if_neg (by linarith), if_neg (by linarith),
      if_neg (by linarith), if_neg (by linarith)]
  · intro hzw
    simp only [z_to_pvalue]
    split_ifs <;> linarith

/-- C8 witness: `z_to_pvalue 2 = 0.05`, and `|2| ≤ |4|` gives
`z_to_pvalue 4 ≤ z_to_pvalue 2`. -/
theorem z_to_pvalue_table_antitone_witness :
    z_to_pvalue 2 = 0.05 ∧ z_to_pvalue 4 ≤ z_to_pvalue 2 := by
  refine ⟨(z_to_pvalue_table_antitone 2 4).2.2.1 ⟨by norm_num, by norm_num⟩,
    (z_to_pvalue_table_antitone 2 4).2.2.2.2.2.2 (by norm_num)⟩

/-- C9: on the empty sample, `calculate_stats` succeeds and returns all
ten fields equal to 0. -/
theorem calculate_stats_empty (sq : ℚ → ℚ) :
    calculate_stats sq [] = List.replicate 10 0 := rfl

end stats

namespace stats

/-- C4: with `v1 = []` and `v2 = [1]` the orchestrator routes to the
Mann-Whitney branch, the test itself reports `insufficient_data`, but
`calculate_rank_biserial` divides by `n1·n2 = 0`, so the public
`hypothesis_test` operation fails with a division-by-zero error instead
of returning an insufficient-data outcome. -/
theorem rank_biserial_div_zero_reachable :
    (mann_whitney_u_test sqrtStub [] [1]).2.2 = "insufficient_data" ∧
    calculate_rank_biserial (mann_whitney_u_test sqrtStub [] [1]).1 0 1 =
      Except.error "division by zero" ∧
    hypothesis_test sqrtStub [] [1] = Except.error "division by zero" := by
  refine ⟨by norm_num [mann_whitney_u_test], by norm_num [calculate_rank_biserial], ?_⟩
  norm_num [hypothesis_test, check_normality, mann_whitney_u_test,
    calculate_rank_biserial]
  exact fun h => absurd h (by decide)

/-- C10: for non-empty samples routed through the guard `n1 < 3` or
`n2 < 3` of the Mann-Whitney test, the emitted outcome has status
`insufficient_data`, yet its effect-size field is exactly 1, because the
sentinel `u_stat = 0` makes `calculate_rank_biserial` return
`1 − 0/(n1·n2) = 1` regardless of the data (and the p-value field is
`z_to_pvalue 0 = 1/2`). -/
theorem mann_whitney_insufficient_effect_one (sq : ℚ → ℚ) (v1 v2 : List ℚ)
    (h1 : v1 ≠ []) (h2 : v2 ≠ []) (h3 : v1.length < 3 ∨ v2.length < 3) :
    hypothesis_test sq v1 v2 =
      Except.ok (Outcome.mannwhitney 0 0 (1/2) "insufficient_data" 1
        (check_normality sq v1).1 (check_normality sq v2).1) := by
  have hn1 : 0 < v1.length := List.length_pos.mpr h1
  have hn2 : 0 < v2.length := List.length_pos.mpr h2
  have hnot : ¬((check_normality sq v1).1 = "approximately_normal" ∧
      (check_normality sq v2).1 = "approximately_normal") := by
    rcases h3 with h | h
    · rintro ⟨ha, -⟩
      rw [check_normality_insufficient sq v1 (by omega)] at ha
      exact absurd ha (by decide)
    · rintro ⟨-, hb⟩
      rw [check_normality_insufficient sq v2 (by omega)] at hb
      exact absurd hb (by decide)
  have hmw : mann_whitney_u_test sq v1 v2 = (0, 0, "insufficient_data") := by
    simp only [mann_whitney_u_test]
    rw [if_pos h3]
  have hrb : calculate_rank_biserial (0 : ℚ) v1.length v2.length =
      Except.ok 1 := by
    simp only [calculate_rank_biserial]
    rw [if_neg (Nat.mul_ne_zero (by omega) (by omega))]
    norm_num
  simp only [hypothesis_test]
  rw [if_neg hnot, hmw]
  rw [hrb]
  have hp : z_to_pvalue 0 = 1/2 := by norm_num [z_to_pvalue]
  simp [hp]

/-- C10 witness: samples `[1]` and `[2]` (both non-empty, both with
fewer than 3 elements) produce an insufficient-data Mann-Whitney
outcome whose effect size is exactly 1. -/
theorem mann_whitney_insufficient_effect_one_witness :
    hypothesis_test sqrtStub [1] [2] =
      Except.ok (Outcome.mannwhitney 0 0 (1/2) "insufficient_data" 1
        "insufficient_data" "insufficient_data") := by
  have h := mann_whitney_insufficient_effect_one sqrtStub [1] [2]
    (by simp) (by simp) (Or.inl (by norm_num))
  rw [check_normality_insufficient sqrtStub [1] (by norm_num),
    check_normality_insufficient sqrtStub [2] (by norm_num)] at h
  exact h

/-- C3 (amended): for every pair of NON-EMPTY samples, the orchestrator
emits a `WelchOutcome` — with p-value `t_to_pvalue t df` and effect size
`calculate_cohens_d` — exactly when both normality statuses are
`approximately_normal`, and in every other case emits a
`MannWhitneyOutcome` — with p-value `z_to_pvalue z` and the rank-biserial
effect size — both outcomes carrying the two samples' normality
statuses.  (For a pair with an empty sample the Mann-Whitney branch does
not emit an outcome: it fails with a division-by-zero error, see C4.) -/
theorem hypothesis_test_routing (sq : ℚ → ℚ)
    (Hsq : ∀ x, 0 ≤ x → (sq x = 0 ↔ x = 0)) (v1 v2 : List ℚ)
    (h1 : v1 ≠ []) (h2 : v2 ≠ []) :
    (((check_normality sq v1).1 = "approximately_normal" ∧
        (check_normality sq v2).1 = "approximately_normal") →
      ∃ t df, welchs_t_test sq v1 v2 =
          [PyVal.num t, PyVal.num df, PyVal.str "success"] ∧
        hypothesis_test sq v1 v2 = Except.ok (Outcome.welch t df
          (t_to_pvalue t df) "success"
          (calculate_cohens_d sq (mean v1) (mean v2) (variance v1)
            (variance v2) v1.length v2.length)
          (check_normality sq v1).1 (check_normality sq v2).1)) ∧
    (¬((check_normality sq v1).1 = "approximately_normal" ∧
        (check_normality sq v2).1 = "approximately_normal") →
      calculate_rank_biserial (mann_whitney_u_test sq v1 v2).1
          v1.length v2.length =
        Except.ok (1 - 2 * (mann_whitney_u_test sq v1 v2).1 /
          ((v1.length : ℚ) * (v2.length : ℚ))) ∧
      hypothesis_test sq v1 v2 = Except.ok (Outcome.mannwhitney
        (mann_whitney_u_test sq v1 v2).1 (mann_whitney_u_test sq v1 v2).2.1
        (z_to_pvalue (mann_whitney_u_test sq v1 v2).2.1)
        (mann_whitney_u_test sq v1 v2).2.2
        (1 - 2 * (mann_whitney_u_test sq v1 v2).1 /
          ((v1.length : ℚ) * (v2.length : ℚ)))
        (check_normality sq v1).1 (check_normality sq v2).1)) := by
  have hn1 : 0 < v1.length := List.length_pos.mpr h1
  have hn2 : 0 < v2.length := List.length_pos.mpr h2
  constructor
  · rintro ⟨ha, hb⟩
    obtain ⟨hna, hsa⟩ := check_normality_normal_facts sq v1 ha
    obtain ⟨hnb, hsb⟩ := check_normality_normal_facts sq v2 hb
    obtain ⟨t, df, hw⟩ := welchs_t_test_success sq Hsq v1 v2 hna hnb hsa hsb
    refine ⟨t, df, hw, ?_⟩
    simp only [hypothesis_test]
    rw [if_pos ⟨ha, hb⟩, hw]
  · intro hnot
    have hrb : calculate_rank_biserial (mann_whitney_u_test sq v1 v2).1
        v1.length v2.length =
        Except.ok (1 - 2 * (mann_whitney_u_test sq v1 v2).1 /
          ((v1.length : ℚ) * (v2.length : ℚ))) := by
      simp only [calculate_rank_biserial]
      rw [if_neg (Nat.mul_ne_zero (by omega) (by omega))]
    refine ⟨hrb, ?_⟩
    simp only [hypothesis_test]
    rw [if_neg hnot, hrb]

/-- C3 witness: for the non-empty samples `[1]` and `[2]` (statuses
`insufficient_data`, hence not both approximately normal) the
Mann-Whitney branch emits the tagged outcome. -/
theorem hypothesis_test_routing_witness :
    hypothesis_test sqrtStub [1] [2] =
      Except.ok (Outcome.mannwhitney 0 0 (1/2) "insufficient_data" 1
        "insufficient_data" "insufficient_data") := by
  have hs1 : (check_normality sqrtStub [1]).1 = "insufficient_data" :=
    check_normality_insufficient sqrtStub [1] (by norm_num)
  have hs2 : (check_normality sqrtStub [2]).1 = "insufficient_data" :=
    check_normality_insufficient sqrtStub [2] (by norm_num)
  have hmw : mann_whitney_u_test sqrtStub [1] [2] =
      (0, 0, "insufficient_data") := by
    norm_num [mann_whitney_u_test]
  have h := (hypothesis_test_routing sqrtStub sqrtStub_spec [1] [2]
    (by simp) (by simp)).2
    (by rw [hs1]; rintro ⟨hc, -⟩; exact absurd hc (by decide))
  obtain ⟨-, hmain⟩ := h
  rw [hmw, hs1, hs2] at hmain
  norm_num [z_to_pvalue] at hmain
  exact hmain

/-- C3 counterexample to the unamended claim: for `v1 = []`, `v2 = [1]`
the statuses are not both approximately normal, yet the orchestrator
does not emit a `MannWhitneyOutcome` — it fails with a division-by-zero
error. -/
theorem hypothesis_test_routing_counterexample :
    (check_normality sqrtStub ([] : List ℚ)).1 ≠ "approximately_normal" ∧
    hypothesis_test sqrtStub [] [1] = Except.error "division by zero" := by
  constructor
  · rw [check_normality_insufficient sqrtStub [] (by norm_num)]
    decide
  · norm_num [hypothesis_test, check_normality, mann_whitney_u_test,
      calculate_rank_biserial]
    exact fun h => absurd h (by decide)

end stats

namespace stats

/-! ### Helpers for the percentile chain (C6) -/

lemma foldl_min_le_init : ∀ (l : List ℚ) (a : ℚ), l.foldl min a ≤ a := by
  intro l
  induction l with
  | nil => intro a; simp
  | cons b t ih =>
      intro a
      simp only [List.foldl_cons]
      exact le_trans (ih (min a b)) (min_le_left a b)

lemma foldl_min_le_mem : ∀ (l : List ℚ) (a x : ℚ), x ∈ l → l.foldl min a ≤ x := by
  intro l
  induction l with
  | nil => intro a x hx; cases hx
  | cons b t ih =>
      intro a x hx
      rcases List.mem_cons.mp hx with rfl | hx
      · simp only [List.foldl_cons]
        exact le_trans (foldl_min_le_init t (min a x)) (min_le_right a x)
      · simp only [List.foldl_cons]
        exact ih (min a b) x hx

lemma listMin_le (v : List ℚ) (x : ℚ) (hx : x ∈ v) : listMin v ≤ x := by
  cases v with
  | nil => cases hx
  | cons a t =>
      rcases List.mem_cons.mp hx with rfl | hx
      · exact foldl_min_le_init t x
      · exact foldl_min_le_mem t a x hx

lemma le_foldl_max_init : ∀ (l : List ℚ) (a : ℚ), a ≤ l.foldl max a := by
  intro l
  induction l with
  | nil => intro a; simp
  | cons b t ih =>
      intro a
      simp only [List.foldl_cons]
      exact le_trans (le_max_left a b) (ih (max a b))

lemma le_foldl_max_mem : ∀ (l : List ℚ) (a x : ℚ), x ∈ l → x ≤ l.foldl max a := by
  intro l
  induction l with
  | nil => intro a x hx; cases hx
  | cons b t ih =>
      intro a x hx
      rcases List.mem_cons.mp hx with rfl | hx
      · simp only [List.foldl_cons]
        exact le_trans (le_max_right a x) (le_foldl_max_init t (max a x))
      · simp only [List.foldl_cons]
        exact ih (max a b) x hx

lemma le_listMax (v : List ℚ) (x : ℚ) (hx : x ∈ v) : x ≤ listMax v := by
  cases v with
  | nil => cases hx
  | cons a t =>
      rcases List.mem_cons.mp hx with rfl | hx
      · exact le_foldl_max_init t x
      · exact le_foldl_max_mem t a x hx

lemma insertionSort_getD_mem (v : List ℚ) (i : ℕ) (hi : i < v.length) :
    (List.insertionSort (· ≤ ·) v).getD i 0 ∈ v := by
  have hlen : (List.insertionSort (· ≤ ·) v).length = v.length :=
    (List.perm_insertionSort _ v).length_eq
  have hi' : i < (List.insertionSort (· ≤ ·) v).length := by omega
  rw [List.getD_eq_getElem _ _ hi']
  exact (List.perm_insertionSort _ v).mem_iff.mp (List.getElem_mem hi')

lemma insertionSort_getD_le (v : List ℚ) (i j : ℕ) (hij : i ≤ j)
    (hj : j < v.length) :
    (List.insertionSort (· ≤ ·) v).getD i 0 ≤
      (List.insertionSort (· ≤ ·) v).getD j 0 := by
  have hlen : (List.insertionSort (· ≤ ·) v).length = v.length :=
    (List.perm_insertionSort _ v).length_eq
  have hj' : j < (List.insertionSort (· ≤ ·) v).length := by omega
  have hi' : i < (List.insertionSort (· ≤ ·) v).length := by omega
  rw [List.getD_eq_getElem _ _ hi', List.getD_eq_getElem _ _ hj']
  have hs := List.sorted_insertionSort (· ≤ ·) v
  have hrel := hs.rel_get_of_le (a := ⟨i, hi'⟩) (b := ⟨j, hj'⟩)
    (Fin.mk_le_mk.mpr hij)
  simpa [List.get_eq_getElem] using hrel

/-- C6: for every non-empty sample, the `calculate_stats` result (at
positions 3 = min, 5 = p90, 6 = p95, 7 = p99, 4 = max, with each
percentile the element at zero-based index `⌊q·(n−1)⌋` of the
ascending-sorted sample) satisfies `min ≤ p90 ≤ p95 ≤ p99 ≤ max`. -/
theorem percentile_chain (sq : ℚ → ℚ) (v : List ℚ) (hv : v ≠ []) :
    (calculate_stats sq v).getD 3 0 ≤ (calculate_stats sq v).getD 5 0 ∧
    (calculate_stats sq v).getD 5 0 ≤ (calculate_stats sq v).getD 6 0 ∧
    (calculate_stats sq v).getD 6 0 ≤ (calculate_stats sq v).getD 7 0 ∧
    (calculate_stats sq v).getD 7 0 ≤ (calculate_stats sq v).getD 4 0 := by
  have hn : 0 < v.length := List.length_pos.mpr hv
  have hb90 : 9 * (v.length - 1) / 10 < v.length := by omega
  have hb95 : 19 * (v.length - 1) / 20 < v.length := by omega
  have hb99 : 99 * (v.length - 1) / 100 < v.length := by omega
  simp only [calculate_stats, if_neg hv, List.getD_cons_succ,
    List.getD_cons_zero]
  refine ⟨?_, ?_, ?_, ?_⟩
  · exact listMin_le v _ (insertionSort_getD_mem v _ hb90)
  · exact insertionSort_getD_le v _ _ (by omega) hb95
  · exact insertionSort_getD_le v _ _ (by omega) hb99
  · exact le_listMax v _ (insertionSort_getD_mem v _ hb99)

/-- C6 witness: for the sample `[5, 1, 4, 2, 3]` the chain
`min ≤ p90 ≤ p95 ≤ p99 ≤ max` holds on the computed statistics. -/
theorem percentile_chain_witness :
    (calculate_stats sqrtStub [5, 1, 4, 2, 3]).getD 3 0 ≤
      (calculate_stats sqrtStub [5, 1, 4, 2, 3]).getD 5 0 ∧
    (calculate_stats sqrtStub [5, 1, 4, 2, 3]).getD 5 0 ≤
      (calculate_stats sqrtStub [5, 1, 4, 2, 3]).getD 6 0 ∧
    (calculate_stats sqrtStub [5, 1, 4, 2, 3]).getD 6 0 ≤
      (calculate_stats sqrtStub [5, 1, 4, 2, 3]).getD 7 0 ∧
    (calculate_stats sqrtStub [5, 1, 4, 2, 3]).getD 7 0 ≤
      (calculate_stats sqrtStub [5, 1, 4, 2, 3]).getD 4 0 :=
  percentile_chain sqrtStub [5, 1, 4, 2, 3] (by simp)

end stats
